import Mathlib

/-!
# kubectl-guard: the decision engine

A shallow embedding of `internal/config/config.go`, `internal/guard/guard.go` and the
`exec` path of `internal/cli/cli.go`.

* Go strings are embedded as `String`; `strings.HasPrefix`, `strings.TrimPrefix` and
  `strings.TrimSpace` are written out on the character list.
* Go slices of strings are embedded as `List String` (a nil slice is the empty list, which is
  all that `len(..) == 0` and `range` can observe).
* `for ... range` loops become structural recursion on the list, one equation per iteration.
* The two `kubectl config ...` sub-processes are external: what `cmd.Output()` gave back
  is an input of the model (`Env`).
-/

namespace KubectlGuard

/-! ## Go standard library: `strings` -/

/-- Go `strings.HasPrefix(s, p)`. -/
def HasPrefix (s p : String) : Bool :=
  p.data.isPrefixOf s.data

/-- Go `strings.TrimPrefix(s, p)`: `s` without the leading `p`, or `s` itself. -/
def TrimPrefix (s p : String) : String :=
  if HasPrefix s p then ⟨s.data.drop p.data.length⟩ else s

/-- Go `unicode.IsSpace`: the Unicode White_Space property. -/
def isSpace (c : Char) : Bool :=
  let n := c.toNat
  (0x09 ≤ n && n ≤ 0x0D) || n == 0x20 || n == 0x85 || n == 0xA0 || n == 0x1680 ||
  (0x2000 ≤ n && n ≤ 0x200A) || n == 0x2028 || n == 0x2029 || n == 0x202F ||
  n == 0x205F || n == 0x3000

/-- Go `strings.TrimSpace`: leading and trailing white space removed. -/
def TrimSpace (s : String) : String :=
  ⟨((s.data.dropWhile isSpace).reverse.dropWhile isSpace).reverse⟩

/-- The loop `for _, x := range xs { if s == x { return true } }; return false`. -/
def stringIn (s : String) : List String → Bool
  | [] => false
  | x :: xs => if s = x then true else stringIn s xs

/-! ## `internal/config` -/

/-- A protected Kubernetes context; an empty `Namespaces` means all namespaces. -/
structure GuardedContext where
  Name : String
  Namespaces : List String
deriving DecidableEq, Repr

/-- The guard configuration. -/
structure Config where
  GuardedContexts : List GuardedContext
deriving DecidableEq, Repr

/-- Loop of `Config.IsGuarded` over the remaining entries. -/
def isGuardedLoop (context : String) : List GuardedContext → Bool
  | [] => false
  | gc :: rest => if gc.Name = context then true else isGuardedLoop context rest

/-- Source function `Config.IsGuarded`: is the context guarded. -/
def Config.IsGuarded (c : Config) (context : String) : Bool :=
  isGuardedLoop context c.GuardedContexts

/-- Loop of `Config.IsNamespaceGuarded` over the remaining entries. -/
def isNamespaceGuardedLoop (context nspace : String) : List GuardedContext → Bool
  | [] => false
  | gc :: rest =>
    if gc.Name = context then
      if gc.Namespaces.length = 0 then true
      else if stringIn nspace gc.Namespaces then true
      else isNamespaceGuardedLoop context nspace rest
    else isNamespaceGuardedLoop context nspace rest

/-- Source function `Config.IsNamespaceGuarded`: is the namespace in the context guarded. -/
def Config.IsNamespaceGuarded (c : Config) (context nspace : String) : Bool :=
  isNamespaceGuardedLoop context nspace c.GuardedContexts

/-- Loop of `Config.AddContext`: the entry list after the call. The first entry with
the name gets the new namespace list and the loop returns; when the loop runs out, the
new entry is appended. -/
def addContextLoop (context : String) (namespaces : List String) :
    List GuardedContext → List GuardedContext
  | [] => [{ Name := context, Namespaces := namespaces }]
  | gc :: rest =>
    if gc.Name = context then { gc with Namespaces := namespaces } :: rest
    else gc :: addContextLoop context namespaces rest

/-- Source function `Config.AddContext`: adds a context to the guarded list. -/
def Config.AddContext (c : Config) (context : String) (namespaces : List String) : Config :=
  { GuardedContexts := addContextLoop context namespaces c.GuardedContexts }

/-- Loop of `Config.RemoveContext`: the entry list after the call and the returned
boolean. At the first entry with the name, `append(l[:i], l[i+1:]...)` and `true`. -/
def removeContextLoop (context : String) : List GuardedContext → List GuardedContext × Bool
  | [] => ([], false)
  | gc :: rest =>
    if gc.Name = context then (rest, true)
    else ((gc :: (removeContextLoop context rest).1), (removeContextLoop context rest).2)

/-- Source function `Config.RemoveContext`: removes a context from the guarded list;
returns the configuration after the call and the boolean result. -/
def Config.RemoveContext (c : Config) (context : String) : Config × Bool :=
  ({ GuardedContexts := (removeContextLoop context c.GuardedContexts).1 },
    (removeContextLoop context c.GuardedContexts).2)

/-! ## `internal/guard` -/

/-- The kubectl commands that modify or delete resources. -/
def DestructiveCommands : List String :=
  ["delete", "apply", "patch", "replace", "scale", "rollout", "drain", "cordon",
   "uncordon", "taint", "label", "annotate", "edit", "set"]

/-- The flags that take a value argument. -/
def flagsWithValue : List String :=
  ["-n", "--namespace", "-l", "--selector", "-f", "--filename", "-o", "--output",
   "-c", "--container", "--context", "--kubeconfig", "--cluster", "--user"]

/-- Source function `IsDestructiveCommand`: is the command destructive. -/
def IsDestructiveCommand (cmd : String) : Bool :=
  stringIn cmd DestructiveCommands

/-- Source function `GetNamespaceFromArgs`: the loop body at `arg = args[i]`, `rest = args[i+1:]`;
`i+1 < len(args)` is `rest` being non-empty and `args[i+1]` is its head. -/
def GetNamespaceFromArgs : List String → String
  | [] => ""
  | arg :: rest =>
    match (decide (arg = "-n" ∨ arg = "--namespace")), rest with
    | true, next :: _ => next
    | _, _ =>
      if HasPrefix arg "-n=" then TrimPrefix arg "-n="
      else if HasPrefix arg "--namespace=" then TrimPrefix arg "--namespace="
      else GetNamespaceFromArgs rest

/-- Loop of `GetCommand`; the first argument is the variable `skipNext`. -/
def getCommandLoop : Bool → List String → String
  | _, [] => ""
  | true, _ :: rest => getCommandLoop false rest
  | false, arg :: rest =>
    if HasPrefix arg "-" then getCommandLoop (stringIn arg flagsWithValue) rest
    else arg

/-- Source function `GetCommand`: the main kubectl command of the argument vector. -/
def GetCommand (args : List String) : String :=
  getCommandLoop false args

/-- Source function `HasForceFlag`: is the token `--force` present. -/
def HasForceFlag : List String → Bool
  | [] => false
  | arg :: rest => if arg = "--force" then true else HasForceFlag rest

/-- Source function `RemoveForceFlag`: the tokens other than `--force`, appended in order. -/
def RemoveForceFlag : List String → List String
  | [] => []
  | arg :: rest =>
    if arg ≠ "--force" then arg :: RemoveForceFlag rest else RemoveForceFlag rest

/-- Source function `formatBlockMessage`. -/
def formatBlockMessage (ctx ns cmd : String) : String :=
  "blocked\n" ++
    "  context: " ++ ctx ++ "\n" ++
    "  namespace: " ++ ns ++ "\n" ++
    "  command: " ++ cmd ++ "\n\n" ++
    "This context is guarded.\n" ++
    "Use --force flag to execute, or run `kubectl guard unguard " ++ ctx ++
    "` to remove protection."

/-- A Go `error` value. -/
abbrev Error := String

/-- What `exec.Cmd.Output()` returned: the captured standard output and the error
(`none` is Go `nil`). -/
structure CmdOutput where
  out : String
  err : Option Error
deriving DecidableEq, Repr

/-- The outcome of the two external kubectl calls of one invocation:
`kubectl config current-context` and `kubectl config view --minify -o jsonpath=...`. -/
structure Env where
  currentContext : CmdOutput
  currentNamespace : CmdOutput
deriving DecidableEq, Repr

/-- Source function `GetCurrentContext`: the current kubectl context. -/
def GetCurrentContext (env : Env) : Except Error String :=
  match env.currentContext.err with
  | some err => .error err
  | none => .ok (TrimSpace env.currentContext.out)

/-- Source function `GetCurrentNamespace`: the current namespace from kubeconfig. The Go function
returns `(string, error)` with the error always nil; the pair is kept. -/
def GetCurrentNamespace (env : Env) : String × Option Error :=
  match env.currentNamespace.err with
  | some _ => ("default", none)
  | none =>
    let ns := TrimSpace env.currentNamespace.out
    if ns = "" then ("default", none) else (ns, none)

/-- The result of a guard check. -/
structure CheckResult where
  Blocked : Bool
  Context : String
  Namespace : String
  Command : String
  Message : String
deriving DecidableEq, Repr

/-- The guard: a configuration. -/
structure Guard where
  cfg : Config
deriving DecidableEq, Repr

/-- Source function `Guard.Check`: should the command be blocked. `(nil, err)` is `.error err` and
`(result, nil)` is `.ok result`; unset fields of `result` hold Go zero values. -/
def Guard.Check (g : Guard) (env : Env) (args : List String) : Except Error CheckResult :=
  match GetCurrentContext env with
  | .error err => .error err
  | .ok ctx =>
    let ns := GetNamespaceFromArgs args
    let ns := if ns = "" then (GetCurrentNamespace env).1 else ns
    let cmd := GetCommand args
    let result : CheckResult :=
      { Blocked := false, Context := ctx, Namespace := ns, Command := cmd, Message := "" }
    if !g.cfg.IsGuarded ctx then .ok result
    else if !g.cfg.IsNamespaceGuarded ctx ns then .ok result
    else if !IsDestructiveCommand cmd then .ok result
    else .ok { result with Blocked := true, Message := formatBlockMessage ctx ns cmd }

/-! ## `internal/cli` -/

/-- Everything external to one `exec` invocation: the two kubectl lookups, what
`exec.LookPath("kubectl")` returned and what running the wrapped tool returned. -/
structure World where
  env : Env
  lookPath : Except Error String
  runErr : Option Error

/-- What `runExec` did: the exit code it returned, the text written to standard error,
and the process started by `execCommand` (path and argument vector), if any. -/
structure ExecResult where
  exitCode : Nat
  stderr : List String
  executed : Option (String × List String)
deriving DecidableEq, Repr

/-- Source function `ExecKubectl`: the returned error and the process that was started. -/
def ExecKubectl (w : World) (args : List String) :
    Option Error × Option (String × List String) :=
  match w.lookPath with
  | .error err => (some err, none)
  | .ok kubectlPath => (w.runErr, some (kubectlPath, args))

/-- First statement of `runExec`: the `--` separator is removed if present
(`if len(args) > 0 && args[0] == "--" { args = args[1:] }`). -/
def dropSeparator : List String → List String
  | "--" :: rest => rest
  | args => args

/-- Source function `runExec` of the command line. -/
def runExec (cfg : Config) (w : World) (args : List String) : ExecResult :=
  let args := dropSeparator args
  if args.length = 0 then
    { exitCode := 1, stderr := ["kubectl command is required\n"], executed := none }
  else
    let g : Guard := { cfg := cfg }
    let forceMode := HasForceFlag args
    let args := if forceMode then RemoveForceFlag args else args
    match g.Check w.env args with
    | .error err =>
      { exitCode := 1, stderr := ["check failed: " ++ err ++ "\n"], executed := none }
    | .ok result =>
      if result.Blocked && !forceMode then
        { exitCode := 1, stderr := [result.Message ++ "\n"], executed := none }
      else
        let notice :=
          if forceMode && result.Blocked then
            ["executing " ++ result.Command ++ " on " ++ result.Context ++ " with --force\n"]
          else []
        match ExecKubectl w args with
        | (some _, executed) => { exitCode := 1, stderr := notice, executed := executed }
        | (none, executed) => { exitCode := 0, stderr := notice, executed := executed }

/-! ## Specification-side definitions

These follow the wording of the specification, not the code; the theorems below compare
them with the functions above. -/

/-- Specification wording: the token is a namespace flag in one of its four forms:
`-n`, `--namespace`, or a token with prefix `-n=` or `--namespace=`. -/
def isNamespaceFlag (t : String) : Bool :=
  decide (t = "-n") || decide (t = "--namespace") || HasPrefix t "-n=" ||
    HasPrefix t "--namespace="

/-- Specification wording: the vector contains `-n` or `--namespace` immediately
followed by the token `X`, or contains the token `-n=X` or `--namespace=X`. -/
def containsNamespaceFlagFor (X : String) : List String → Bool
  | [] => false
  | t :: rest =>
    (decide (t = "-n" ∨ t = "--namespace") && decide (rest.head? = some X)) ||
      decide (t = "-n=" ++ X) || decide (t = "--namespace=" ++ X) ||
      containsNamespaceFlagFor X rest

/-- Specification wording: index `i` holds `-n` or `--namespace` with a token at
`i+1`, or holds a token with prefix `-n=` or `--namespace=`. -/
def namespaceMatchAt (args : List String) (i : Nat) : Bool :=
  match args[i]? with
  | none => false
  | some t =>
    (decide (t = "-n" ∨ t = "--namespace") && decide (i + 1 < args.length)) ||
      HasPrefix t "-n=" || HasPrefix t "--namespace="

/-- Specification wording: the suffix of a token after its first `=`. -/
def suffixAfterFirstEq (t : String) : String :=
  ⟨(t.data.dropWhile (fun c => c != '=')).drop 1⟩

/-- Specification wording: the token at index `i` immediately follows an unskipped
flag that is exactly one of the value-taking flags (so it is skipped as that flag's
value). -/
def consumedAt (args : List String) : Nat → Bool
  | 0 => false
  | i + 1 =>
    !consumedAt args i &&
      (match args[i]? with
       | some t => HasPrefix t "-" && decide (t ∈ flagsWithValue)
       | none => false)

/-- Specification wording: the token at index `i` does not begin with `-` and is not
consumed as the value of a flag. -/
def commandAt (args : List String) (i : Nat) : Bool :=
  match args[i]? with
  | some t => !HasPrefix t "-" && !consumedAt args i
  | none => false

/-- Some token `--force` stands immediately after a token that is exactly one of the
value-taking flags, where the argument interpreter reads it as that flag's value. -/
def forceAfterValueFlag : List String → Bool
  | [] => false
  | f :: rest =>
    (decide (f ∈ flagsWithValue) && decide (rest.head? = some "--force")) ||
      forceAfterValueFlag rest

/-- Specification wording: at most one entry per context name. -/
abbrev uniqueNames (c : Config) : Prop :=
  (c.GuardedContexts.map (fun gc => gc.Name)).Nodup

/-- A mutation of the policy store: an add or a remove. -/
inductive StoreOp where
  | add (context : String) (namespaces : List String)
  | remove (context : String)
deriving DecidableEq, Repr

/-- The store after one mutation. -/
def applyOp (c : Config) : StoreOp → Config
  | .add context namespaces => c.AddContext context namespaces
  | .remove context => (c.RemoveContext context).1

/-- The store reached from the empty store by a sequence of mutations. -/
def reachedBy (ops : List StoreOp) : Config :=
  ops.foldl applyOp { GuardedContexts := [] }

/-- The policy of the end-to-end scenario: `prod` with all namespaces, `staging` with
the namespace `critical`. -/
def scenarioStore : Config :=
  { GuardedContexts := [{ Name := "prod", Namespaces := [] },
                        { Name := "staging", Namespaces := ["critical"] }] }

/-- Specification wording: a text given line by line; the lines are joined with a
newline between consecutive lines and none after the last. -/
def joinLines : List String → String
  | [] => ""
  | [l] => l
  | l :: rest => l ++ "\n" ++ joinLines rest

/-- Specification wording: the lines of the block message for a context, a namespace
and a command. -/
def blockMessageLines (ctx ns cmd : String) : List String :=
  ["blocked",
   "  context: " ++ ctx,
   "  namespace: " ++ ns,
   "  command: " ++ cmd,
   "",
   "This context is guarded.",
   "Use --force flag to execute, or run `kubectl guard unguard " ++ ctx ++
     "` to remove protection."]

/-- Specification wording: the first entry of the store with the given name. -/
def firstEntryNamed (c : Config) (context : String) : Option GuardedContext :=
  c.GuardedContexts.find? (fun gc => decide (gc.Name = context))

/-! ## Helper lemmas -/

theorem stringIn_iff (s : String) (xs : List String) : stringIn s xs = true ↔ s ∈ xs := by
  induction xs with
  | nil => simp [stringIn]
  | cons x xs ih =>
    by_cases h : s = x
    · simp [stringIn, h]
    · simp [stringIn, h, ih]

theorem isGuardedLoop_iff (context : String) (l : List GuardedContext) :
    isGuardedLoop context l = true ↔ ∃ gc ∈ l, gc.Name = context := by
  induction l with
  | nil => simp [isGuardedLoop]
  | cons gc rest ih =>
    by_cases h : gc.Name = context
    · simp [isGuardedLoop, h]
    · simp [isGuardedLoop, h, ih]

theorem isNamespaceGuardedLoop_iff (context nspace : String) (l : List GuardedContext) :
    isNamespaceGuardedLoop context nspace l = true ↔
      ∃ gc ∈ l, gc.Name = context ∧ (gc.Namespaces = [] ∨ nspace ∈ gc.Namespaces) := by
  induction l with
  | nil => simp [isNamespaceGuardedLoop]
  | cons gc rest ih =>
    by_cases h : gc.Name = context
    · by_cases h0 : gc.Namespaces = []
      · simp [isNamespaceGuardedLoop, h, h0]
      · by_cases hn : nspace ∈ gc.Namespaces
        · simp [isNamespaceGuardedLoop, h, h0, hn, stringIn_iff]
        · have hs : stringIn nspace gc.Namespaces = false := by
            rw [← Bool.not_eq_true, stringIn_iff]; exact hn
          simp [isNamespaceGuardedLoop, h, h0, hn, hs, ih]
    · simp [isNamespaceGuardedLoop, h, ih]

/-- The value `Guard.Check` returns once the context lookup has succeeded. -/
theorem check_ok_eq (g : Guard) (env : Env) (args : List String) (ctx : String)
    (h : GetCurrentContext env = .ok ctx) :
    g.Check env args = .ok
      { Blocked := g.cfg.IsGuarded ctx &&
          (g.cfg.IsNamespaceGuarded ctx
            (if GetNamespaceFromArgs args = "" then (GetCurrentNamespace env).1
             else GetNamespaceFromArgs args) &&
           IsDestructiveCommand (GetCommand args)),
        Context := ctx,
        Namespace := if GetNamespaceFromArgs args = "" then (GetCurrentNamespace env).1
                     else GetNamespaceFromArgs args,
        Command := GetCommand args,
        Message :=
          if (g.cfg.IsGuarded ctx &&
              (g.cfg.IsNamespaceGuarded ctx
                (if GetNamespaceFromArgs args = "" then (GetCurrentNamespace env).1
                 else GetNamespaceFromArgs args) &&
               IsDestructiveCommand (GetCommand args))) = true
          then formatBlockMessage ctx
            (if GetNamespaceFromArgs args = "" then (GetCurrentNamespace env).1
             else GetNamespaceFromArgs args) (GetCommand args)
          else "" } := by
  unfold Guard.Check
  rw [h]
  dsimp only
  cases h1 : g.cfg.IsGuarded ctx
  · simp
  · cases h2 : g.cfg.IsNamespaceGuarded ctx
        (if GetNamespaceFromArgs args = "" then (GetCurrentNamespace env).1
         else GetNamespaceFromArgs args)
    · simp
    · cases h3 : IsDestructiveCommand (GetCommand args) <;> simp

theorem getCurrentContext_ok_iff (env : Env) (ctx : String) :
    GetCurrentContext env = .ok ctx ↔
      env.currentContext.err = none ∧ ctx = TrimSpace env.currentContext.out := by
  unfold GetCurrentContext
  cases h : env.currentContext.err with
  | none => simp [eq_comm]
  | some e => simp

theorem getCurrentContext_error_iff (env : Env) (e : Error) :
    GetCurrentContext env = .error e ↔ env.currentContext.err = some e := by
  unfold GetCurrentContext
  cases h : env.currentContext.err with
  | none => simp
  | some e0 => simp

/-! ## The guard engine -/

/-- C1: when the current-context lookup succeeds with context `ctx`, `Guard.Check`
returns a decision for `ctx` and the resolved namespace whose `Blocked` flag is true
exactly when the context is guarded, the namespace is guarded in it and the extracted
command is destructive; if any one of the three is false, `Blocked` is false. -/
theorem check_blocked_iff (g : Guard) (env : Env) (args : List String) (ctx : String)
    (hctx : GetCurrentContext env = .ok ctx) :
    ∃ r, g.Check env args = .ok r ∧ r.Context = ctx ∧
      r.Namespace = (if GetNamespaceFromArgs args = "" then (GetCurrentNamespace env).1
                     else GetNamespaceFromArgs args) ∧
      (r.Blocked = true ↔
        g.cfg.IsGuarded ctx = true ∧ g.cfg.IsNamespaceGuarded ctx r.Namespace = true ∧
          IsDestructiveCommand (GetCommand args) = true) ∧
      (g.cfg.IsGuarded ctx = false → r.Blocked = false) ∧
      (g.cfg.IsNamespaceGuarded ctx r.Namespace = false → r.Blocked = false) ∧
      (IsDestructiveCommand (GetCommand args) = false → r.Blocked = false) := by
  refine ⟨_, check_ok_eq g env args ctx hctx, rfl, rfl, ?_, ?_, ?_, ?_⟩
  · simp [Bool.and_eq_true]
  · intro h; simp [h]
  · intro h; simp only [] at h; simp [h]
  · intro h; simp [h]

theorem check_blocked_iff_witness :
    ∃ r, (Guard.mk ⟨[⟨"prod", []⟩, ⟨"staging", ["critical"]⟩]⟩).Check
        ⟨⟨"staging\n", none⟩, ⟨"", some "exit status 1"⟩⟩
        ["delete", "pod", "-n", "critical"] = .ok r ∧ r.Context = "staging" ∧
      r.Namespace = "critical" ∧ r.Blocked = true := by
  obtain ⟨r, h1, h2, h3, h4, -⟩ :=
    check_blocked_iff ⟨⟨[⟨"prod", []⟩, ⟨"staging", ["critical"]⟩]⟩⟩
      ⟨⟨"staging\n", none⟩, ⟨"", some "exit status 1"⟩⟩
      ["delete", "pod", "-n", "critical"] "staging" rfl
  refine ⟨r, h1, h2, ?_, ?_⟩
  · rw [h3]; decide
  · rw [h4, h3]; decide

/-- C2: `Guard.Check` fails exactly when the current-context lookup fails; the error
is then the lookup's own error for every policy store and argument vector, and a
failing current-namespace lookup does not make `Check` fail. -/
theorem check_error_iff (g : Guard) (env : Env) (args : List String) :
    ((∃ e, g.Check env args = .error e) ↔ ∃ e, GetCurrentContext env = .error e) ∧
    (∀ e, GetCurrentContext env = .error e ↔ env.currentContext.err = some e) ∧
    (∀ e, GetCurrentContext env = .error e →
      ∀ (g2 : Guard) (args2 : List String), g2.Check env args2 = .error e) ∧
    (env.currentContext.err = none → env.currentNamespace.err ≠ none →
      ∃ r, g.Check env args = .ok r) := by
  refine ⟨?_, getCurrentContext_error_iff env, ?_, ?_⟩
  · constructor
    · rintro ⟨e, he⟩
      cases hc : GetCurrentContext env with
      | error e2 => exact ⟨e2, rfl⟩
      | ok ctx => rw [check_ok_eq g env args ctx hc] at he; cases he
    · rintro ⟨e, he⟩
      exact ⟨e, by unfold Guard.Check; rw [he]⟩
  · intro e he g2 args2
    unfold Guard.Check; rw [he]
  · intro hc _
    exact ⟨_, check_ok_eq g env args _ ((getCurrentContext_ok_iff env _).2 ⟨hc, rfl⟩)⟩

theorem check_error_iff_witness :
    (∀ (g2 : Guard) (args2 : List String),
      g2.Check ⟨⟨"", some "exit status 1"⟩, ⟨"", none⟩⟩ args2 = .error "exit status 1") ∧
    (∃ r, (Guard.mk ⟨[⟨"prod", []⟩]⟩).Check ⟨⟨"prod\n", none⟩, ⟨"", some "exit status 1"⟩⟩
      ["delete", "pod"] = .ok r) :=
  ⟨(check_error_iff ⟨⟨[]⟩⟩ ⟨⟨"", some "exit status 1"⟩, ⟨"", none⟩⟩ []).2.2.1
      "exit status 1" rfl,
   (check_error_iff ⟨⟨[⟨"prod", []⟩]⟩⟩ ⟨⟨"prod\n", none⟩, ⟨"", some "exit status 1"⟩⟩
      ["delete", "pod"]).2.2.2 rfl (by decide)⟩

/-- C3: once the context lookup has succeeded, the namespace of the decision is the
namespace extracted from the arguments when that is non-empty; otherwise the trimmed
output of the current-namespace lookup when the lookup succeeded and the trimmed output
is non-empty; otherwise `default`. It is never the empty string. -/
theorem check_namespace (g : Guard) (env : Env) (args : List String) (ctx : String)
    (hctx : GetCurrentContext env = .ok ctx) :
    ∃ r, g.Check env args = .ok r ∧
      (GetNamespaceFromArgs args ≠ "" → r.Namespace = GetNamespaceFromArgs args) ∧
      (GetNamespaceFromArgs args = "" → env.currentNamespace.err = none →
        TrimSpace env.currentNamespace.out ≠ "" →
        r.Namespace = TrimSpace env.currentNamespace.out) ∧
      (GetNamespaceFromArgs args = "" →
        (env.currentNamespace.err ≠ none ∨ TrimSpace env.currentNamespace.out = "") →
        r.Namespace = "default") ∧
      r.Namespace ≠ "" := by
  refine ⟨_, check_ok_eq g env args ctx hctx, ?_, ?_, ?_, ?_⟩
  · intro h; simp [h]
  · intro h he ht; simp [h, GetCurrentNamespace, he, ht]
  · intro h hor
    rcases hor with he | ht
    · cases hn : env.currentNamespace.err with
      | none => exact absurd hn he
      | some e => simp [h, GetCurrentNamespace, hn]
    · cases hn : env.currentNamespace.err with
      | none => simp [h, GetCurrentNamespace, hn, ht]
      | some e => simp [h, GetCurrentNamespace, hn]
  · by_cases h : GetNamespaceFromArgs args = ""
    · cases hn : env.currentNamespace.err with
      | none =>
        by_cases ht : TrimSpace env.currentNamespace.out = ""
        · simp only [h, GetCurrentNamespace, hn, ht, if_true]; decide
        · simp [h, GetCurrentNamespace, hn, ht]
      | some e => simp only [h, GetCurrentNamespace, hn, if_true]; decide
    · simp [h]

theorem check_namespace_witness :
    ∃ r, (Guard.mk ⟨[⟨"prod", []⟩]⟩).Check ⟨⟨"prod\n", none⟩, ⟨" \n", none⟩⟩
        ["delete", "pod", "-n="] = .ok r ∧ r.Namespace = "default" := by
  obtain ⟨r, h1, -, -, h4, -⟩ :=
    check_namespace ⟨⟨[⟨"prod", []⟩]⟩⟩ ⟨⟨"prod\n", none⟩, ⟨" \n", none⟩⟩
      ["delete", "pod", "-n="] "prod" rfl
  exact ⟨r, h1, h4 (by decide) (Or.inr (by decide))⟩

/-! ## The command classifier -/

/-- C8: `IsDestructiveCommand cmd` holds exactly when `cmd` equals one of the fourteen
destructive names; it is false for the read-only commands, for the empty string and
for names that differ in case or only share a prefix. -/
theorem isDestructiveCommand_iff (cmd : String) :
    (IsDestructiveCommand cmd = true ↔
      cmd = "delete" ∨ cmd = "apply" ∨ cmd = "patch" ∨ cmd = "replace" ∨ cmd = "scale" ∨
      cmd = "rollout" ∨ cmd = "drain" ∨ cmd = "cordon" ∨ cmd = "uncordon" ∨
      cmd = "taint" ∨ cmd = "label" ∨ cmd = "annotate" ∨ cmd = "edit" ∨ cmd = "set") ∧
    IsDestructiveCommand "get" = false ∧ IsDestructiveCommand "describe" = false ∧
    IsDestructiveCommand "logs" = false ∧ IsDestructiveCommand "exec" = false ∧
    IsDestructiveCommand "port-forward" = false ∧ IsDestructiveCommand "top" = false ∧
    IsDestructiveCommand "" = false ∧
    IsDestructiveCommand "Delete" = false ∧ IsDestructiveCommand "del" = false ∧
    IsDestructiveCommand "deleted" = false ∧ IsDestructiveCommand "*" = false := by
  refine ⟨?_, by decide, by decide, by decide, by decide, by decide, by decide, by decide,
    by decide, by decide, by decide, by decide⟩
  unfold IsDestructiveCommand
  rw [stringIn_iff]
  simp [DestructiveCommands]

/-! ## The policy store -/

/-- C10: in a store with at most one entry per context name, `IsNamespaceGuarded c n`
is false when no entry is named `c`; when the entry named `c` has an empty namespace
list it is true for every namespace; otherwise it is true exactly when `n` is in that
entry's list. -/
theorem isNamespaceGuarded_of_unique (c : Config) (context nspace : String)
    (huniq : (c.GuardedContexts.map (fun gc => gc.Name)).Nodup) :
    ((∀ gc ∈ c.GuardedContexts, gc.Name ≠ context) →
      c.IsNamespaceGuarded context nspace = false) ∧
    (∀ gc ∈ c.GuardedContexts, gc.Name = context →
      (gc.Namespaces = [] → ∀ n, c.IsNamespaceGuarded context n = true) ∧
      (gc.Namespaces ≠ [] →
        (c.IsNamespaceGuarded context nspace = true ↔ nspace ∈ gc.Namespaces))) := by
  unfold Config.IsNamespaceGuarded
  refine ⟨?_, ?_⟩
  · intro hno
    rw [← Bool.not_eq_true, isNamespaceGuardedLoop_iff]
    rintro ⟨gc, hmem, hname, -⟩
    exact hno gc hmem hname
  · intro gc hmem hname
    refine ⟨?_, ?_⟩
    · intro h0 n
      rw [isNamespaceGuardedLoop_iff]
      exact ⟨gc, hmem, hname, Or.inl h0⟩
    · intro hne
      rw [isNamespaceGuardedLoop_iff]
      constructor
      · rintro ⟨gc2, hmem2, hname2, h2⟩
        have heq : gc2 = gc :=
          List.inj_on_of_nodup_map huniq hmem2 hmem (hname2.trans hname.symm)
        subst heq
        rcases h2 with h2 | h2
        · exact absurd h2 hne
        · exact h2
      · intro hin
        exact ⟨gc, hmem, hname, Or.inr hin⟩

theorem isNamespaceGuarded_of_unique_witness :
    (Config.mk [⟨"prod", []⟩, ⟨"staging", ["production", "critical"]⟩]).IsNamespaceGuarded
        "dev" "default" = false ∧
    (∀ n, (Config.mk [⟨"prod", []⟩, ⟨"staging", ["production", "critical"]⟩]).IsNamespaceGuarded
        "prod" n = true) ∧
    ((Config.mk [⟨"prod", []⟩, ⟨"staging", ["production", "critical"]⟩]).IsNamespaceGuarded
        "staging" "default" = true ↔ "default" ∈ ["production", "critical"]) :=
  ⟨(isNamespaceGuarded_of_unique ⟨[⟨"prod", []⟩, ⟨"staging", ["production", "critical"]⟩]⟩
      "dev" "default" (by decide)).1 (by decide),
   ((isNamespaceGuarded_of_unique ⟨[⟨"prod", []⟩, ⟨"staging", ["production", "critical"]⟩]⟩
      "prod" "default" (by decide)).2 ⟨"prod", []⟩ (by decide) rfl).1 rfl,
   ((isNamespaceGuarded_of_unique ⟨[⟨"prod", []⟩, ⟨"staging", ["production", "critical"]⟩]⟩
      "staging" "default" (by decide)).2 ⟨"staging", ["production", "critical"]⟩
      (by decide) rfl).2 (by decide)⟩

/-! ## The argument interpreter: namespace -/

theorem hasPrefix_iff (s p : String) :
    HasPrefix s p = true ↔ ∃ r : List Char, s = ⟨p.data ++ r⟩ := by
  unfold HasPrefix
  rw [List.isPrefixOf_iff_prefix]
  constructor
  · rintro ⟨r, hr⟩
    exact ⟨r, String.ext hr.symm⟩
  · rintro ⟨r, hr⟩
    exact ⟨r, by rw [hr]⟩

theorem trimPrefix_mk_append (p : String) (r : List Char) :
    TrimPrefix ⟨p.data ++ r⟩ p = ⟨r⟩ := by
  have h : HasPrefix ⟨p.data ++ r⟩ p = true := (hasPrefix_iff _ _).2 ⟨r, rfl⟩
  simp [TrimPrefix, h]

theorem append_eq_mk (p X : String) : p ++ X = ⟨p.data ++ X.data⟩ :=
  String.ext (by simp)

/-- A token with prefix `-n=` is neither `-n` nor `--namespace`. -/
theorem not_bare_of_short_eq (r : List Char) :
    decide ((⟨"-n=".data ++ r⟩ : String) = "-n" ∨ (⟨"-n=".data ++ r⟩ : String) = "--namespace")
      = false := by
  rw [decide_eq_false_iff_not]
  rintro (h | h)
  · have := congrArg String.data h; simp at this
  · have := congrArg String.data h; simp at this

/-- A token with prefix `--namespace=` is neither `-n` nor `--namespace`. -/
theorem not_bare_of_long_eq (r : List Char) :
    decide ((⟨"--namespace=".data ++ r⟩ : String) = "-n" ∨
      (⟨"--namespace=".data ++ r⟩ : String) = "--namespace") = false := by
  rw [decide_eq_false_iff_not]
  rintro (h | h)
  · have := congrArg String.data h; simp at this
  · have := congrArg String.data h; simp at this

theorem not_short_of_long_eq (r : List Char) :
    HasPrefix ⟨"--namespace=".data ++ r⟩ "-n=" = false := by
  simp [HasPrefix, List.isPrefixOf]

theorem getNamespaceFromArgs_bare (f next : String) (rest : List String)
    (hf : f = "-n" ∨ f = "--namespace") :
    GetNamespaceFromArgs (f :: next :: rest) = next := by
  simp [GetNamespaceFromArgs, hf]

theorem getNamespaceFromArgs_bare_last (f : String) (hf : f = "-n" ∨ f = "--namespace") :
    GetNamespaceFromArgs [f] = "" := by
  rcases hf with rfl | rfl <;> decide

theorem getNamespaceFromArgs_short_eq (r : List Char) (rest : List String) :
    GetNamespaceFromArgs (⟨"-n=".data ++ r⟩ :: rest) = ⟨r⟩ := by
  have h1 := not_bare_of_short_eq r
  have h2 : HasPrefix ⟨"-n=".data ++ r⟩ "-n=" = true := (hasPrefix_iff _ _).2 ⟨r, rfl⟩
  unfold GetNamespaceFromArgs
  rw [h1]
  simp only [h2, if_true]
  exact trimPrefix_mk_append "-n=" r

theorem getNamespaceFromArgs_long_eq (r : List Char) (rest : List String) :
    GetNamespaceFromArgs (⟨"--namespace=".data ++ r⟩ :: rest) = ⟨r⟩ := by
  have h1 := not_bare_of_long_eq r
  have h2 : HasPrefix ⟨"--namespace=".data ++ r⟩ "--namespace=" = true :=
    (hasPrefix_iff _ _).2 ⟨r, rfl⟩
  have h3 := not_short_of_long_eq r
  unfold GetNamespaceFromArgs
  rw [h1]
  simp only [h2, h3, if_true, Bool.false_eq_true, if_false]
  exact trimPrefix_mk_append "--namespace=" r

theorem getNamespaceFromArgs_skip (t : String) (rest : List String)
    (h1 : HasPrefix t "-n=" = false) (h2 : HasPrefix t "--namespace=" = false)
    (h3 : decide (t = "-n" ∨ t = "--namespace") = false ∨ rest = []) :
    GetNamespaceFromArgs (t :: rest) = GetNamespaceFromArgs rest := by
  rw [GetNamespaceFromArgs]
  · simp [h1, h2]
  · intro next tail hd hr
    rcases h3 with h3 | h3
    · rw [h3] at hd; cases hd
    · rw [h3] at hr; cases hr

theorem isNamespaceFlag_false_iff (t : String) :
    isNamespaceFlag t = false ↔
      decide (t = "-n" ∨ t = "--namespace") = false ∧ HasPrefix t "-n=" = false ∧
        HasPrefix t "--namespace=" = false := by
  unfold isNamespaceFlag
  simp only [Bool.or_eq_false_iff, decide_eq_false_iff_not, not_or]
  tauto

theorem getNamespaceFromArgs_append (pre rest : List String)
    (hpre : ∀ t ∈ pre, isNamespaceFlag t = false) :
    GetNamespaceFromArgs (pre ++ rest) = GetNamespaceFromArgs rest := by
  induction pre with
  | nil => rfl
  | cons t pre ih =>
    obtain ⟨h3, h1, h2⟩ := (isNamespaceFlag_false_iff t).1 (hpre t (List.mem_cons_self _ _))
    rw [List.cons_append, getNamespaceFromArgs_skip t _ h1 h2 (Or.inl h3)]
    exact ih (fun u hu => hpre u (List.mem_cons_of_mem _ hu))

/-- C4 (as stated, refuted): a vector may contain `-n b` and still yield another
namespace, because an earlier namespace flag wins. -/
theorem getNamespaceFromArgs_contains_counterexample :
    ¬ ∀ (args : List String) (X : String),
      containsNamespaceFlagFor X args = true → GetNamespaceFromArgs args = X := by
  intro h
  have h2 := h ["-n", "a", "-n", "b"] "b" (by decide)
  revert h2
  decide

/-- C4 (amended): when no token before it is a namespace flag (`-n`, `--namespace`, or
a token with prefix `-n=` or `--namespace=`), the pair `-n X` or `--namespace X`, and
the token `-n=X` or `--namespace=X`, make `GetNamespaceFromArgs` return `X`. -/
theorem getNamespaceFromArgs_first_flag (pre post : List String) (X : String)
    (hpre : ∀ t ∈ pre, isNamespaceFlag t = false) :
    GetNamespaceFromArgs (pre ++ "-n" :: X :: post) = X ∧
    GetNamespaceFromArgs (pre ++ "--namespace" :: X :: post) = X ∧
    GetNamespaceFromArgs (pre ++ ("-n=" ++ X) :: post) = X ∧
    GetNamespaceFromArgs (pre ++ ("--namespace=" ++ X) :: post) = X := by
  refine ⟨?_, ?_, ?_, ?_⟩
  · rw [getNamespaceFromArgs_append pre _ hpre]
    exact getNamespaceFromArgs_bare _ _ _ (Or.inl rfl)
  · rw [getNamespaceFromArgs_append pre _ hpre]
    exact getNamespaceFromArgs_bare _ _ _ (Or.inr rfl)
  · rw [getNamespaceFromArgs_append pre _ hpre, append_eq_mk,
      getNamespaceFromArgs_short_eq]
  · rw [getNamespaceFromArgs_append pre _ hpre, append_eq_mk,
      getNamespaceFromArgs_long_eq]

theorem getNamespaceFromArgs_first_flag_witness :
    GetNamespaceFromArgs (["delete", "pod"] ++ "-n" :: "production" :: ["-n", "other"])
      = "production" ∧
    GetNamespaceFromArgs
      (["delete", "pod"] ++ ("--namespace=" ++ "production") :: ["-n", "other"])
      = "production" :=
  ⟨(getNamespaceFromArgs_first_flag ["delete", "pod"] ["-n", "other"] "production"
      (by decide)).1,
   (getNamespaceFromArgs_first_flag ["delete", "pod"] ["-n", "other"] "production"
      (by decide)).2.2.2⟩

theorem namespaceMatchAt_zero (a : String) (rest : List String) :
    namespaceMatchAt (a :: rest) 0 =
      ((decide (a = "-n" ∨ a = "--namespace") && decide (rest ≠ [])) ||
        HasPrefix a "-n=" || HasPrefix a "--namespace=") := by
  cases rest <;> simp [namespaceMatchAt]

theorem namespaceMatchAt_succ (a : String) (rest : List String) (i : Nat) :
    namespaceMatchAt (a :: rest) (i + 1) = namespaceMatchAt rest i := by
  simp [namespaceMatchAt]

theorem namespaceMatchAt_zero_false (a : String) (rest : List String)
    (h : namespaceMatchAt (a :: rest) 0 = false) :
    HasPrefix a "-n=" = false ∧ HasPrefix a "--namespace=" = false ∧
      (decide (a = "-n" ∨ a = "--namespace") = false ∨ rest = []) := by
  rw [namespaceMatchAt_zero] at h
  simp only [Bool.or_eq_false_iff, Bool.and_eq_false_iff] at h
  obtain ⟨⟨h3, h1⟩, h2⟩ := h
  refine ⟨h1, h2, ?_⟩
  rcases h3 with h3 | h3
  · exact Or.inl h3
  · exact Or.inr (by simpa using h3)

theorem suffixAfterFirstEq_short (r : List Char) :
    suffixAfterFirstEq ⟨"-n=".data ++ r⟩ = ⟨r⟩ := by
  simp [suffixAfterFirstEq, List.dropWhile]

theorem suffixAfterFirstEq_long (r : List Char) :
    suffixAfterFirstEq ⟨"--namespace=".data ++ r⟩ = ⟨r⟩ := by
  simp [suffixAfterFirstEq, List.dropWhile]

theorem getNamespaceFromArgs_match_zero (a : String) (rest : List String)
    (hm : namespaceMatchAt (a :: rest) 0 = true) :
    GetNamespaceFromArgs (a :: rest) =
      if a = "-n" ∨ a = "--namespace" then rest.getD 0 "" else suffixAfterFirstEq a := by
  rw [namespaceMatchAt_zero] at hm
  by_cases hb : a = "-n" ∨ a = "--namespace"
  · have h1 : HasPrefix a "-n=" = false := by rcases hb with rfl | rfl <;> decide
    have h2 : HasPrefix a "--namespace=" = false := by rcases hb with rfl | rfl <;> decide
    simp only [h1, h2, hb, decide_True, Bool.true_and, Bool.or_false, decide_eq_true_eq] at hm
    cases rest with
    | nil => exact absurd rfl hm
    | cons next tail =>
      rw [getNamespaceFromArgs_bare a next tail hb, if_pos hb]
      rfl
  · simp only [hb, decide_False, Bool.false_and, Bool.false_or, Bool.or_eq_true] at hm
    rw [if_neg hb]
    rcases hm with hm | hm
    · obtain ⟨r, rfl⟩ := (hasPrefix_iff _ _).1 hm
      rw [getNamespaceFromArgs_short_eq, suffixAfterFirstEq_short]
    · obtain ⟨r, rfl⟩ := (hasPrefix_iff _ _).1 hm
      rw [getNamespaceFromArgs_long_eq, suffixAfterFirstEq_long]

/-- C5: `GetNamespaceFromArgs` is decided by the smallest index `i` that holds `-n`
or `--namespace` with a token at `i+1`, or a token with prefix `-n=` or `--namespace=`:
the result is the token at `i+1` in the first case and the suffix after the first `=`
in the second. With no such index (in particular for the empty vector, or when the only
namespace flag is a bare `-n` or `--namespace` in last position) the result is empty. -/
theorem getNamespaceFromArgs_first_match (args : List String) :
    (∀ i, namespaceMatchAt args i = true →
      (∀ j, j < i → namespaceMatchAt args j = false) →
      GetNamespaceFromArgs args =
        if args.getD i "" = "-n" ∨ args.getD i "" = "--namespace" then args.getD (i + 1) ""
        else suffixAfterFirstEq (args.getD i "")) ∧
    ((∀ i, namespaceMatchAt args i = false) → GetNamespaceFromArgs args = "") ∧
    GetNamespaceFromArgs [] = "" ∧
    (∀ (pre : List String) (f : String), (∀ t ∈ pre, isNamespaceFlag t = false) →
      f = "-n" ∨ f = "--namespace" → GetNamespaceFromArgs (pre ++ [f]) = "") := by
  refine ⟨?_, ?_, rfl, ?_⟩
  · induction args with
    | nil => intro i hm; simp [namespaceMatchAt] at hm
    | cons a rest ih =>
      intro i hm hmin
      cases i with
      | zero => exact getNamespaceFromArgs_match_zero a rest hm
      | succ i =>
        obtain ⟨h1, h2, h3⟩ :=
          namespaceMatchAt_zero_false a rest (hmin 0 (Nat.succ_pos i))
        rw [namespaceMatchAt_succ] at hm
        rw [getNamespaceFromArgs_skip a rest h1 h2 h3]
        have hmin2 : ∀ j, j < i → namespaceMatchAt rest j = false := by
          intro j hj
          rw [← namespaceMatchAt_succ a rest j]
          exact hmin (j + 1) (Nat.succ_lt_succ hj)
        simpa using ih i hm hmin2
  · induction args with
    | nil => intro _; rfl
    | cons a rest ih =>
      intro hall
      obtain ⟨h1, h2, h3⟩ := namespaceMatchAt_zero_false a rest (hall 0)
      rw [getNamespaceFromArgs_skip a rest h1 h2 h3]
      exact ih (fun i => by rw [← namespaceMatchAt_succ a rest i]; exact hall (i + 1))
  · intro pre f hpre hf
    rw [getNamespaceFromArgs_append pre _ hpre]
    exact getNamespaceFromArgs_bare_last f hf

theorem getNamespaceFromArgs_first_match_witness :
    GetNamespaceFromArgs ["delete", "--namespace=a=b", "-n", "c"] = "a=b" ∧
    GetNamespaceFromArgs ["delete", "-n", "c", "-n=d"] = "c" ∧
    GetNamespaceFromArgs ["delete", "pod", "-n"] = "" := by
  refine ⟨?_, ?_, ?_⟩
  · rw [(getNamespaceFromArgs_first_match ["delete", "--namespace=a=b", "-n", "c"]).1 1
      (by decide) (by decide)]
    decide
  · rw [(getNamespaceFromArgs_first_match ["delete", "-n", "c", "-n=d"]).1 1
      (by decide) (by decide)]
    decide
  · exact (getNamespaceFromArgs_first_match ["delete", "pod", "-n"]).2.2.2
      ["delete", "pod"] "-n" (by decide) (Or.inl rfl)

/-! ## The argument interpreter: command -/

theorem hasPrefix_dash_of_mem_flagsWithValue (f : String) (hf : f ∈ flagsWithValue) :
    HasPrefix f "-" = true := by
  simp only [flagsWithValue, List.mem_cons, List.mem_singleton, List.not_mem_nil,
    or_false] at hf
  rcases hf with rfl | rfl | rfl | rfl | rfl | rfl | rfl | rfl | rfl | rfl | rfl | rfl |
    rfl | rfl <;> decide

theorem stringIn_eq_decide (s : String) (xs : List String) :
    stringIn s xs = decide (s ∈ xs) := by
  cases h : stringIn s xs
  · have : ¬ s ∈ xs := by rw [← stringIn_iff, h]; simp
    simp [this]
  · have : s ∈ xs := (stringIn_iff s xs).1 h
    simp [this]

/-- One iteration of the loop of `GetCommand` at an index that is not the command. -/
theorem getCommandLoop_step (args : List String) (k : Nat) (hk : k < args.length)
    (hc : commandAt args k = false) :
    getCommandLoop (consumedAt args k) (args.drop k) =
      getCommandLoop (consumedAt args (k + 1)) (args.drop (k + 1)) := by
  have hget : args[k]? = some args[k] := List.getElem?_eq_getElem hk
  rw [List.drop_eq_getElem_cons hk]
  simp only [commandAt, hget] at hc
  cases hs : consumedAt args k
  · have hp : HasPrefix args[k] "-" = true := by simpa [hs] using hc
    simp [getCommandLoop, consumedAt, hs, hget, hp, stringIn_eq_decide]
  · simp [getCommandLoop, consumedAt, hs]

theorem getCommandLoop_at_command (args : List String) (i : Nat)
    (hc : commandAt args i = true) :
    getCommandLoop (consumedAt args i) (args.drop i) = args.getD i "" := by
  have hi : i < args.length := by
    by_contra hlt
    simp [commandAt, List.getElem?_eq_none (Nat.le_of_not_lt hlt)] at hc
  have hget : args[i]? = some args[i] := List.getElem?_eq_getElem hi
  rw [List.drop_eq_getElem_cons hi]
  simp only [commandAt, hget, Bool.and_eq_true, Bool.not_eq_true'] at hc
  rw [hc.2]
  simp only [getCommandLoop, hc.1, Bool.false_eq_true, if_false]
  simp [List.getD_eq_getElem?_getD, hget]

theorem getCommandLoop_reach (args : List String) (i : Nat)
    (hmin : ∀ j, j < i → commandAt args j = false) (hi : i ≤ args.length) :
    getCommandLoop false args = getCommandLoop (consumedAt args i) (args.drop i) := by
  induction i with
  | zero => simp [consumedAt]
  | succ i ih =>
    rw [ih (fun j hj => hmin j (Nat.lt_succ_of_lt hj)) (Nat.le_of_succ_le hi)]
    exact getCommandLoop_step args i hi (hmin i (Nat.lt_succ_self i))

/-- C6: `GetCommand` returns the first token that does not begin with `-` and is not
consumed as the value of an unskipped value-taking flag; when there is no such token
(in particular for the empty vector and for a vector of flags only) it returns the
empty string. -/
theorem getCommand_first_command (args : List String) :
    (∀ i, commandAt args i = true → (∀ j, j < i → commandAt args j = false) →
      GetCommand args = args.getD i "") ∧
    ((∀ i, commandAt args i = false) → GetCommand args = "") ∧
    GetCommand [] = "" ∧
    ((∀ t ∈ args, HasPrefix t "-" = true) → GetCommand args = "") := by
  have hnone : (∀ i, commandAt args i = false) → GetCommand args = "" := by
    intro hall
    unfold GetCommand
    rw [getCommandLoop_reach args args.length (fun j _ => hall j) (Nat.le_refl _)]
    simp [getCommandLoop]
  refine ⟨?_, hnone, rfl, ?_⟩
  · intro i hc hmin
    have hi : i < args.length := by
      by_contra hlt
      simp [commandAt, List.getElem?_eq_none (Nat.le_of_not_lt hlt)] at hc
    unfold GetCommand
    rw [getCommandLoop_reach args i hmin (Nat.le_of_lt hi)]
    exact getCommandLoop_at_command args i hc
  · intro hflags
    apply hnone
    intro i
    unfold commandAt
    cases hget : args[i]? with
    | none => rfl
    | some t =>
      have hmem : t ∈ args := List.getElem?_mem hget
      simp [hflags t hmem]

theorem getCommand_first_command_witness :
    GetCommand ["-n", "production", "--dry-run", "delete", "pod", "nginx"] = "delete" ∧
    GetCommand ["-n", "-n", "delete"] = "delete" ∧
    GetCommand ["--force", "-n"] = "" := by
  refine ⟨?_, ?_, ?_⟩
  · rw [(getCommand_first_command
      ["-n", "production", "--dry-run", "delete", "pod", "nginx"]).1 3
      (by decide) (by decide)]
    decide
  · rw [(getCommand_first_command ["-n", "-n", "delete"]).1 2 (by decide) (by decide)]
    decide
  · exact (getCommand_first_command ["--force", "-n"]).2.2.2 (by decide)

/-- C7: a leading value-taking flag together with its value, and a leading flag that
is not in the table, do not change the extracted command. -/
theorem getCommand_leading_flag (rest : List String) :
    (∀ f v : String, f ∈ flagsWithValue → GetCommand (f :: v :: rest) = GetCommand rest) ∧
    (∀ t : String, HasPrefix t "-" = true → t ∉ flagsWithValue →
      GetCommand (t :: rest) = GetCommand rest) := by
  refine ⟨?_, ?_⟩
  · intro f v hf
    have hp := hasPrefix_dash_of_mem_flagsWithValue f hf
    have hs : stringIn f flagsWithValue = true := (stringIn_iff _ _).2 hf
    simp [GetCommand, getCommandLoop, hp, hs]
  · intro t hp hn
    have hs : stringIn t flagsWithValue = false := by
      rw [← Bool.not_eq_true, stringIn_iff]; exact hn
    simp [GetCommand, getCommandLoop, hp, hs]

theorem getCommand_leading_flag_witness :
    GetCommand ("--context" :: "delete" :: ["get", "pods"]) = GetCommand ["get", "pods"] ∧
    GetCommand ("--all-namespaces" :: ["get", "pods"]) = GetCommand ["get", "pods"] :=
  ⟨(getCommand_leading_flag ["get", "pods"]).1 "--context" "delete" (by decide),
   (getCommand_leading_flag ["get", "pods"]).2 "--all-namespaces" (by decide) (by decide)⟩

/-! ## Override handling and the decision -/

theorem removeForceFlag_cons_force (rest : List String) :
    RemoveForceFlag ("--force" :: rest) = RemoveForceFlag rest := by
  simp [RemoveForceFlag]

theorem removeForceFlag_cons_ne (a : String) (rest : List String) (h : a ≠ "--force") :
    RemoveForceFlag (a :: rest) = a :: RemoveForceFlag rest := by
  simp [RemoveForceFlag, h]

theorem forceAfterValueFlag_cons (a : String) (rest : List String)
    (h : forceAfterValueFlag (a :: rest) = false) :
    (a ∈ flagsWithValue → rest.head? ≠ some "--force") ∧
      forceAfterValueFlag rest = false := by
  simp only [forceAfterValueFlag, Bool.or_eq_false_iff, Bool.and_eq_false_iff,
    decide_eq_false_iff_not] at h
  refine ⟨fun hm => ?_, h.2⟩
  rcases h.1 with h1 | h1
  · exact absurd hm h1
  · exact h1

theorem getCommandLoop_removeForceFlag (args : List String)
    (h : forceAfterValueFlag args = false) :
    getCommandLoop false (RemoveForceFlag args) = getCommandLoop false args ∧
    (args.head? ≠ some "--force" →
      getCommandLoop true (RemoveForceFlag args) = getCommandLoop true args) := by
  induction args with
  | nil => simp [RemoveForceFlag]
  | cons a rest ih =>
    obtain ⟨hval, hrest⟩ := forceAfterValueFlag_cons a rest h
    obtain ⟨ih1, ih2⟩ := ih hrest
    by_cases ha : a = "--force"
    · subst ha
      refine ⟨?_, fun hne => absurd rfl hne⟩
      rw [removeForceFlag_cons_force, ih1]
      have hp : HasPrefix "--force" "-" = true := by decide
      have hs : stringIn "--force" flagsWithValue = false := by decide
      simp [getCommandLoop, hp, hs]
    · rw [removeForceFlag_cons_ne a rest ha]
      refine ⟨?_, fun _ => ?_⟩
      · cases hp : HasPrefix a "-"
        · simp [getCommandLoop, hp]
        · cases hs : stringIn a flagsWithValue
          · simp [getCommandLoop, hp, hs, ih1]
          · have hm : a ∈ flagsWithValue := (stringIn_iff _ _).1 hs
            simp [getCommandLoop, hp, hs, ih2 (hval hm)]
      · simp [getCommandLoop, ih1]

theorem getCommand_removeForceFlag (args : List String)
    (h : forceAfterValueFlag args = false) :
    GetCommand (RemoveForceFlag args) = GetCommand args :=
  (getCommandLoop_removeForceFlag args h).1

theorem getNamespaceFromArgs_cons_not_bare (a : String) (rest : List String)
    (h : decide (a = "-n" ∨ a = "--namespace") = false) :
    GetNamespaceFromArgs (a :: rest) =
      if HasPrefix a "-n=" then TrimPrefix a "-n="
      else if HasPrefix a "--namespace=" then TrimPrefix a "--namespace="
      else GetNamespaceFromArgs rest := by
  rw [GetNamespaceFromArgs]
  intro next tail hd _
  rw [h] at hd
  cases hd

theorem getNamespaceFromArgs_removeForceFlag (args : List String)
    (h : forceAfterValueFlag args = false) :
    GetNamespaceFromArgs (RemoveForceFlag args) = GetNamespaceFromArgs args := by
  induction args with
  | nil => rfl
  | cons a rest ih =>
    obtain ⟨hval, hrest⟩ := forceAfterValueFlag_cons a rest h
    have ih1 := ih hrest
    by_cases ha : a = "--force"
    · subst ha
      rw [removeForceFlag_cons_force, ih1,
        getNamespaceFromArgs_skip "--force" rest (by decide) (by decide)
          (Or.inl (by decide))]
    · rw [removeForceFlag_cons_ne a rest ha]
      by_cases hb : a = "-n" ∨ a = "--namespace"
      · have hm : a ∈ flagsWithValue := by
          rcases hb with rfl | rfl <;> decide
        cases rest with
        | nil => rfl
        | cons next tail =>
          have hnext : next ≠ "--force" := by
            intro hn
            exact hval hm (by simp [hn])
          rw [removeForceFlag_cons_ne next tail hnext,
            getNamespaceFromArgs_bare a next _ hb, getNamespaceFromArgs_bare a next _ hb]
      · have hd : decide (a = "-n" ∨ a = "--namespace") = false := by simp [hb]
        rw [getNamespaceFromArgs_cons_not_bare a _ hd,
          getNamespaceFromArgs_cons_not_bare a _ hd, ih1]

/-- C9 (as stated, refuted): with `--force` in the value position of `-n`, stripping
it changes what the argument interpreter extracts, and the blocked flag with it. -/
theorem check_removeForceFlag_counterexample :
    ¬ ∀ (g : Guard) (env : Env) (args : List String),
      (g.Check env (RemoveForceFlag args)).map CheckResult.Blocked =
        (g.Check env args).map CheckResult.Blocked := by
  intro h
  have h0 := h ⟨⟨[⟨"prod", []⟩]⟩⟩ ⟨⟨"prod\n", none⟩, ⟨"", none⟩⟩
    ["-n", "--force", "delete", "pod"]
  have h1 : ((Guard.mk ⟨[⟨"prod", []⟩]⟩).Check ⟨⟨"prod\n", none⟩, ⟨"", none⟩⟩
      (RemoveForceFlag ["-n", "--force", "delete", "pod"])).map CheckResult.Blocked
      = .ok false := rfl
  have h2 : ((Guard.mk ⟨[⟨"prod", []⟩]⟩).Check ⟨⟨"prod\n", none⟩, ⟨"", none⟩⟩
      ["-n", "--force", "delete", "pod"]).map CheckResult.Blocked = .ok true := rfl
  rw [h1, h2] at h0
  cases h0

/-- C9 (amended): when no `--force` token stands immediately after a value-taking
flag, `Check` on the stripped vector has the same blocked flag (and fails in the same
way) as `Check` on the original vector. -/
theorem check_removeForceFlag_blocked (g : Guard) (env : Env) (args : List String)
    (h : forceAfterValueFlag args = false) :
    (g.Check env (RemoveForceFlag args)).map CheckResult.Blocked =
      (g.Check env args).map CheckResult.Blocked := by
  unfold Guard.Check
  rw [getNamespaceFromArgs_removeForceFlag args h, getCommand_removeForceFlag args h]

theorem check_removeForceFlag_blocked_witness :
    ((Guard.mk ⟨[⟨"prod", []⟩, ⟨"staging", ["critical"]⟩]⟩).Check
        ⟨⟨"staging\n", none⟩, ⟨"", none⟩⟩
        (RemoveForceFlag ["delete", "--force", "pod", "-n", "critical", "--force"])).map
        CheckResult.Blocked =
      ((Guard.mk ⟨[⟨"prod", []⟩, ⟨"staging", ["critical"]⟩]⟩).Check
        ⟨⟨"staging\n", none⟩, ⟨"", none⟩⟩
        ["delete", "--force", "pod", "-n", "critical", "--force"]).map
        CheckResult.Blocked :=
  check_removeForceFlag_blocked ⟨⟨[⟨"prod", []⟩, ⟨"staging", ["critical"]⟩]⟩⟩
    ⟨⟨"staging\n", none⟩, ⟨"", none⟩⟩
    ["delete", "--force", "pod", "-n", "critical", "--force"] (by decide)

/-! ## The policy store: lookups and mutations -/

theorem isGuardedLoop_eq_false_iff (context : String) (l : List GuardedContext) :
    isGuardedLoop context l = false ↔ ∀ gc ∈ l, gc.Name ≠ context := by
  rw [← Bool.not_eq_true, isGuardedLoop_iff]
  simp

theorem isGuardedLoop_iff_mem_names (context : String) (l : List GuardedContext) :
    isGuardedLoop context l = true ↔ context ∈ l.map (fun gc => gc.Name) := by
  rw [isGuardedLoop_iff]
  simp

/-- C11: `IsGuarded c` holds exactly when the store has an entry whose name equals `c`;
it depends only on the names in the store, not on the namespace lists. -/
theorem isGuarded_iff (c : Config) (context : String) :
    (c.IsGuarded context = true ↔ ∃ gc ∈ c.GuardedContexts, gc.Name = context) ∧
    (∀ c2 : Config,
      c2.GuardedContexts.map (fun gc => gc.Name) = c.GuardedContexts.map (fun gc => gc.Name) →
      c2.IsGuarded context = c.IsGuarded context) := by
  refine ⟨isGuardedLoop_iff context c.GuardedContexts, ?_⟩
  intro c2 hnames
  unfold Config.IsGuarded
  rw [Bool.eq_iff_iff, isGuardedLoop_iff_mem_names, isGuardedLoop_iff_mem_names, hnames]

theorem isGuarded_iff_witness :
    (Config.mk [⟨"prod", ["a", "b"]⟩]).IsGuarded "prod" = (Config.mk [⟨"prod", []⟩]).IsGuarded "prod" :=
  (isGuarded_iff ⟨[⟨"prod", []⟩]⟩ "prod").2 ⟨[⟨"prod", ["a", "b"]⟩]⟩ rfl

theorem addContextLoop_of_mem (context : String) (namespaces : List String)
    (l : List GuardedContext) (h : ∃ gc ∈ l, gc.Name = context) :
    ∃ pre gc post, l = pre ++ gc :: post ∧ (∀ e ∈ pre, e.Name ≠ context) ∧
      gc.Name = context ∧
      addContextLoop context namespaces l =
        pre ++ { Name := context, Namespaces := namespaces } :: post := by
  induction l with
  | nil => simp at h
  | cons a rest ih =>
    by_cases ha : a.Name = context
    · refine ⟨[], a, rest, rfl, by simp, ha, ?_⟩
      simp [addContextLoop, ha]
    · have hrest : ∃ gc ∈ rest, gc.Name = context := by
        obtain ⟨gc, hmem, hname⟩ := h
        rcases List.mem_cons.1 hmem with rfl | hmem
        · exact absurd hname ha
        · exact ⟨gc, hmem, hname⟩
      obtain ⟨pre, gc, post, hl, hpre, hgc, hadd⟩ := ih hrest
      refine ⟨a :: pre, gc, post, by rw [hl]; rfl, ?_, hgc, ?_⟩
      · intro e he
        rcases List.mem_cons.1 he with rfl | he
        · exact ha
        · exact hpre e he
      · simp [addContextLoop, ha, hadd]

theorem addContextLoop_of_not_mem (context : String) (namespaces : List String)
    (l : List GuardedContext) (h : ∀ gc ∈ l, gc.Name ≠ context) :
    addContextLoop context namespaces l =
      l ++ [{ Name := context, Namespaces := namespaces }] := by
  induction l with
  | nil => rfl
  | cons a rest ih =>
    have ha : a.Name ≠ context := h a (List.mem_cons_self _ _)
    simp [addContextLoop, ha, ih (fun gc hgc => h gc (List.mem_cons_of_mem _ hgc))]

theorem addContextLoop_names (context : String) (namespaces : List String)
    (l : List GuardedContext) :
    (addContextLoop context namespaces l).map (fun gc => gc.Name) =
      if context ∈ l.map (fun gc => gc.Name) then l.map (fun gc => gc.Name)
      else l.map (fun gc => gc.Name) ++ [context] := by
  by_cases h : ∃ gc ∈ l, gc.Name = context
  · obtain ⟨pre, gc, post, hl, -, hgc, hadd⟩ := addContextLoop_of_mem context namespaces l h
    have hmem : context ∈ l.map (fun gc => gc.Name) := by simpa using h
    rw [if_pos hmem, hadd, hl]
    simp [hgc]
  · have hmem : ¬ context ∈ l.map (fun gc => gc.Name) := by simpa using h
    rw [if_neg hmem, addContextLoop_of_not_mem context namespaces l (by simpa using h)]
    simp

/-- C12: when the store has an entry named `c`, `AddContext c ns` keeps the number of
entries, gives the first entry named `c` the namespace list `ns` and leaves all other
entries and the order as they were; when it has none, it appends the one entry
`(c, ns)` at the end. Afterwards `IsGuarded c` holds. -/
theorem addContext_spec (c : Config) (context : String) (namespaces : List String) :
    ((∃ gc ∈ c.GuardedContexts, gc.Name = context) →
      (c.AddContext context namespaces).GuardedContexts.length = c.GuardedContexts.length ∧
      ∃ pre gc post, c.GuardedContexts = pre ++ gc :: post ∧
        (∀ e ∈ pre, e.Name ≠ context) ∧ gc.Name = context ∧
        (c.AddContext context namespaces).GuardedContexts =
          pre ++ { Name := context, Namespaces := namespaces } :: post) ∧
    ((∀ gc ∈ c.GuardedContexts, gc.Name ≠ context) →
      (c.AddContext context namespaces).GuardedContexts =
        c.GuardedContexts ++ [{ Name := context, Namespaces := namespaces }]) ∧
    (c.AddContext context namespaces).IsGuarded context = true := by
  refine ⟨?_, ?_, ?_⟩
  · intro h
    obtain ⟨pre, gc, post, hl, hpre, hgc, hadd⟩ :=
      addContextLoop_of_mem context namespaces c.GuardedContexts h
    refine ⟨?_, pre, gc, post, hl, hpre, hgc, hadd⟩
    show (addContextLoop context namespaces c.GuardedContexts).length = _
    rw [hadd, hl]
    simp
  · intro h
    exact addContextLoop_of_not_mem context namespaces c.GuardedContexts h
  · unfold Config.IsGuarded Config.AddContext
    rw [isGuardedLoop_iff_mem_names, addContextLoop_names]
    by_cases hmem : context ∈ c.GuardedContexts.map (fun gc => gc.Name)
    · rw [if_pos hmem]; exact hmem
    · rw [if_neg hmem]; simp

theorem addContext_spec_witness :
    ((Config.mk [⟨"dev", []⟩, ⟨"prod", []⟩, ⟨"prod", ["x"]⟩]).AddContext "prod"
        ["default", "kube-system"]).GuardedContexts.length =
      (Config.mk [⟨"dev", []⟩, ⟨"prod", []⟩, ⟨"prod", ["x"]⟩]).GuardedContexts.length ∧
    ((Config.mk [⟨"dev", []⟩]).AddContext "prod" ["default"]).GuardedContexts =
      [⟨"dev", []⟩] ++ [⟨"prod", ["default"]⟩] :=
  ⟨((addContext_spec ⟨[⟨"dev", []⟩, ⟨"prod", []⟩, ⟨"prod", ["x"]⟩]⟩ "prod"
      ["default", "kube-system"]).1 ⟨⟨"prod", []⟩, by decide, rfl⟩).1,
   (addContext_spec ⟨[⟨"dev", []⟩]⟩ "prod" ["default"]).2.1 (by decide)⟩

theorem removeContextLoop_snd_iff (context : String) (l : List GuardedContext) :
    (removeContextLoop context l).2 = true ↔ ∃ gc ∈ l, gc.Name = context := by
  induction l with
  | nil => simp [removeContextLoop]
  | cons a rest ih =>
    by_cases ha : a.Name = context
    · simp [removeContextLoop, ha]
    · simp [removeContextLoop, ha, ih]

theorem removeContextLoop_of_not_found (context : String) (l : List GuardedContext)
    (h : (removeContextLoop context l).2 = false) : (removeContextLoop context l).1 = l := by
  induction l with
  | nil => rfl
  | cons a rest ih =>
    by_cases ha : a.Name = context
    · simp [removeContextLoop, ha] at h
    · simp only [removeContextLoop, ha, if_false] at h ⊢
      rw [ih h]

theorem removeContextLoop_names (context : String) (l : List GuardedContext) :
    (removeContextLoop context l).1.map (fun gc => gc.Name) =
      (l.map (fun gc => gc.Name)).erase context := by
  induction l with
  | nil => rfl
  | cons a rest ih =>
    by_cases ha : a.Name = context
    · simp [removeContextLoop, ha]
    · have hb : ¬ (a.Name == context) = true := by simpa using ha
      simp only [removeContextLoop, ha, if_false, List.map_cons]
      rw [List.erase_cons_tail hb, ih]

theorem removeContextLoop_others (context : String) (l : List GuardedContext) :
    (removeContextLoop context l).1.filter (fun gc => decide (gc.Name ≠ context)) =
      l.filter (fun gc => decide (gc.Name ≠ context)) := by
  induction l with
  | nil => rfl
  | cons a rest ih =>
    by_cases ha : a.Name = context
    · simp [removeContextLoop, ha]
    · simp only [removeContextLoop, ha, if_false]
      rw [List.filter_cons, List.filter_cons, ih]

/-- C13: `RemoveContext c` returns true exactly when the store had an entry named `c`;
when it returns false the store is unchanged. -/
theorem removeContext_result (c : Config) (context : String) :
    ((c.RemoveContext context).2 = true ↔ ∃ gc ∈ c.GuardedContexts, gc.Name = context) ∧
    ((c.RemoveContext context).2 = false → (c.RemoveContext context).1 = c) := by
  refine ⟨removeContextLoop_snd_iff context c.GuardedContexts, ?_⟩
  intro h
  unfold Config.RemoveContext at h ⊢
  simp only at h ⊢
  rw [removeContextLoop_of_not_found context c.GuardedContexts h]

theorem removeContext_result_witness :
    (Config.mk [⟨"prod", []⟩, ⟨"staging", []⟩]).RemoveContext "non-existent" =
      (⟨[⟨"prod", []⟩, ⟨"staging", []⟩]⟩, false) := by
  have h := (removeContext_result ⟨[⟨"prod", []⟩, ⟨"staging", []⟩]⟩ "non-existent").2
    (by decide)
  exact Prod.ext h (by decide)

theorem isNamespaceGuardedLoop_false_of_not_guarded (context nspace : String)
    (l : List GuardedContext) (h : isGuardedLoop context l = false) :
    isNamespaceGuardedLoop context nspace l = false := by
  rw [isGuardedLoop_eq_false_iff] at h
  rw [← Bool.not_eq_true, isNamespaceGuardedLoop_iff]
  rintro ⟨gc, hmem, hname, -⟩
  exact h gc hmem hname

theorem removeContextLoop_not_guarded (context : String) (l : List GuardedContext)
    (hone : (l.map (fun gc => gc.Name)).count context ≤ 1) :
    isGuardedLoop context (removeContextLoop context l).1 = false := by
  rw [← Bool.not_eq_true, isGuardedLoop_iff_mem_names, removeContextLoop_names]
  intro hmem
  have hpos : 0 < ((l.map (fun gc => gc.Name)).erase context).count context :=
    List.count_pos_iff.2 hmem
  rw [List.count_erase_self] at hpos
  omega

/-- C14 (as stated, refuted): in a store with two entries named `prod`,
`RemoveContext prod` removes the first one only and `prod` stays guarded. -/
theorem removeContext_removes_counterexample :
    ¬ ∀ (c : Config) (context : String), (∃ gc ∈ c.GuardedContexts, gc.Name = context) →
      (c.RemoveContext context).2 = true ∧
      (c.RemoveContext context).1.IsGuarded context = false ∧
      (∀ n, (c.RemoveContext context).1.IsNamespaceGuarded context n = false) ∧
      (c.RemoveContext context).1.GuardedContexts.filter
          (fun gc => decide (gc.Name ≠ context)) =
        c.GuardedContexts.filter (fun gc => decide (gc.Name ≠ context)) := by
  intro h
  have h2 := (h ⟨[⟨"prod", []⟩, ⟨"staging", ["critical"]⟩, ⟨"prod", ["kube-system"]⟩]⟩
    "prod" ⟨⟨"prod", []⟩, by decide, rfl⟩).2.1
  revert h2
  decide

/-- C14 (amended): in a store with exactly one entry named `c`, `RemoveContext c`
returns true, afterwards `IsGuarded c` is false and `IsNamespaceGuarded c n` is false
for every `n`, and the entries with other names are kept in their order. -/
theorem removeContext_removes (c : Config) (context : String)
    (hmem : ∃ gc ∈ c.GuardedContexts, gc.Name = context)
    (hone : (c.GuardedContexts.map (fun gc => gc.Name)).count context ≤ 1) :
    (c.RemoveContext context).2 = true ∧
    (c.RemoveContext context).1.IsGuarded context = false ∧
    (∀ n, (c.RemoveContext context).1.IsNamespaceGuarded context n = false) ∧
    (c.RemoveContext context).1.GuardedContexts.filter
        (fun gc => decide (gc.Name ≠ context)) =
      c.GuardedContexts.filter (fun gc => decide (gc.Name ≠ context)) := by
  have hg := removeContextLoop_not_guarded context c.GuardedContexts hone
  refine ⟨(removeContextLoop_snd_iff context c.GuardedContexts).2 hmem, hg, ?_,
    removeContextLoop_others context c.GuardedContexts⟩
  intro n
  exact isNamespaceGuardedLoop_false_of_not_guarded context n _ hg

theorem removeContext_removes_witness :
    ((Config.mk [⟨"prod", []⟩, ⟨"staging", []⟩]).RemoveContext "prod").2 = true ∧
    ((Config.mk [⟨"prod", []⟩, ⟨"staging", []⟩]).RemoveContext "prod").1.IsGuarded "prod"
      = false :=
  ⟨(removeContext_removes ⟨[⟨"prod", []⟩, ⟨"staging", []⟩]⟩ "prod"
      ⟨⟨"prod", []⟩, by decide, rfl⟩ (by decide)).1,
   (removeContext_removes ⟨[⟨"prod", []⟩, ⟨"staging", []⟩]⟩ "prod"
      ⟨⟨"prod", []⟩, by decide, rfl⟩ (by decide)).2.1⟩

theorem addContextLoop_nodup (context : String) (namespaces : List String)
    (l : List GuardedContext) (h : (l.map (fun gc => gc.Name)).Nodup) :
    ((addContextLoop context namespaces l).map (fun gc => gc.Name)).Nodup := by
  rw [addContextLoop_names]
  by_cases hmem : context ∈ l.map (fun gc => gc.Name)
  · rw [if_pos hmem]; exact h
  · rw [if_neg hmem]
    rw [List.nodup_append]
    refine ⟨h, List.nodup_singleton _, ?_⟩
    intro a ha hb
    rw [List.mem_singleton] at hb
    subst hb
    exact hmem ha

theorem removeContextLoop_nodup (context : String) (l : List GuardedContext)
    (h : (l.map (fun gc => gc.Name)).Nodup) :
    ((removeContextLoop context l).1.map (fun gc => gc.Name)).Nodup := by
  rw [removeContextLoop_names]
  exact h.erase context

theorem applyOp_uniqueNames (c : Config) (op : StoreOp) (h : uniqueNames c) :
    uniqueNames (applyOp c op) := by
  cases op with
  | add context namespaces => exact addContextLoop_nodup context namespaces _ h
  | remove context => exact removeContextLoop_nodup context _ h

theorem foldl_applyOp_uniqueNames (ops : List StoreOp) (c : Config) (h : uniqueNames c) :
    uniqueNames (ops.foldl applyOp c) := by
  induction ops generalizing c with
  | nil => exact h
  | cons op ops ih => exact ih (applyOp c op) (applyOp_uniqueNames c op h)

/-- C15: a store with at most one entry per context name still has that property
after `AddContext` and after `RemoveContext`; the empty store has it, and so has every
store reached from the empty store by adds and removes. -/
theorem uniqueNames_preserved :
    (∀ (c : Config) (context : String) (namespaces : List String),
      uniqueNames c → uniqueNames (c.AddContext context namespaces)) ∧
    (∀ (c : Config) (context : String),
      uniqueNames c → uniqueNames (c.RemoveContext context).1) ∧
    uniqueNames { GuardedContexts := [] } ∧
    (∀ ops : List StoreOp, uniqueNames (reachedBy ops)) := by
  refine ⟨?_, ?_, List.nodup_nil, ?_⟩
  · intro c context namespaces h
    exact addContextLoop_nodup context namespaces _ h
  · intro c context h
    exact removeContextLoop_nodup context _ h
  · intro ops
    exact foldl_applyOp_uniqueNames ops _ List.nodup_nil

theorem uniqueNames_preserved_witness :
    uniqueNames ((Config.mk [⟨"prod", []⟩, ⟨"staging", ["critical"]⟩]).AddContext "prod"
      ["default"]) ∧
    uniqueNames ((Config.mk [⟨"prod", []⟩, ⟨"staging", ["critical"]⟩]).RemoveContext
      "staging").1 ∧
    uniqueNames (reachedBy [.add "prod" [], .add "prod" ["default"], .remove "dev",
      .add "dev" [], .remove "prod"]) :=
  ⟨uniqueNames_preserved.1 ⟨[⟨"prod", []⟩, ⟨"staging", ["critical"]⟩]⟩ "prod" ["default"]
      (by decide),
   uniqueNames_preserved.2.1 ⟨[⟨"prod", []⟩, ⟨"staging", ["critical"]⟩]⟩ "staging"
      (by decide),
   uniqueNames_preserved.2.2.2 _⟩

/-! ## Override handling -/

theorem hasForceFlag_iff (args : List String) :
    HasForceFlag args = true ↔ "--force" ∈ args := by
  induction args with
  | nil => simp [HasForceFlag]
  | cons a rest ih =>
    by_cases ha : a = "--force"
    · simp [HasForceFlag, ha]
    · have hne : ¬ "--force" = a := fun h => ha h.symm
      simp [HasForceFlag, ha, hne, ih]

theorem removeForceFlag_eq_filter (args : List String) :
    RemoveForceFlag args = args.filter (fun a => decide (a ≠ "--force")) := by
  induction args with
  | nil => rfl
  | cons a rest ih =>
    by_cases ha : a = "--force"
    · simp [RemoveForceFlag, ha, ih]
    · simp [RemoveForceFlag, ha, ih]

theorem force_not_mem_removeForceFlag (args : List String) :
    "--force" ∉ RemoveForceFlag args := by
  rw [removeForceFlag_eq_filter]
  simp

theorem removeForceFlag_of_not_mem (args : List String) (h : "--force" ∉ args) :
    RemoveForceFlag args = args := by
  rw [removeForceFlag_eq_filter, List.filter_eq_self]
  intro a ha
  have hne : a ≠ "--force" := fun heq => h (heq ▸ ha)
  simpa using hne

/-- C16: `RemoveForceFlag args` is the sub-sequence of the tokens of `args` that differ
from `--force`, in their order: every occurrence is removed, every other token is kept
as often as it occurs, `HasForceFlag` is false on the result, and a vector without
`--force` comes back unchanged. -/
theorem removeForceFlag_spec (args : List String) :
    RemoveForceFlag args = args.filter (fun a => decide (a ≠ "--force")) ∧
    (RemoveForceFlag args).Sublist args ∧
    "--force" ∉ RemoveForceFlag args ∧
    (∀ t, t ≠ "--force" → (RemoveForceFlag args).count t = args.count t) ∧
    HasForceFlag (RemoveForceFlag args) = false ∧
    ("--force" ∉ args → RemoveForceFlag args = args) := by
  refine ⟨removeForceFlag_eq_filter args, ?_, force_not_mem_removeForceFlag args, ?_, ?_,
    removeForceFlag_of_not_mem args⟩
  · rw [removeForceFlag_eq_filter]
    exact List.filter_sublist args
  · intro t ht
    rw [removeForceFlag_eq_filter, List.count_filter]
    simpa using ht
  · rw [← Bool.not_eq_true, hasForceFlag_iff]
    exact force_not_mem_removeForceFlag args

theorem removeForceFlag_spec_witness :
    RemoveForceFlag ["delete", "pod", "nginx"] = ["delete", "pod", "nginx"] ∧
    (RemoveForceFlag ["--force", "delete", "--force", "pod"]).count "pod" =
      ["--force", "delete", "--force", "pod"].count "pod" :=
  ⟨(removeForceFlag_spec ["delete", "pod", "nginx"]).2.2.2.2.2 (by decide),
   (removeForceFlag_spec ["--force", "delete", "--force", "pod"]).2.2.2.1 "pod"
      (by decide)⟩

/-- C17: `HasForceFlag args` holds exactly when some token of `args` equals `--force`,
at whatever position; tokens that only contain or extend it do not count. -/
theorem hasForceFlag_iff_mem (args : List String) :
    (HasForceFlag args = true ↔ "--force" ∈ args) ∧
    (HasForceFlag args = true ↔ ∃ i : Nat, args[i]? = some "--force") ∧
    HasForceFlag ["delete", "--force=true", "pod"] = false ∧
    HasForceFlag ["delete", "--forced", "pod"] = false ∧
    HasForceFlag ["delete", "-force", "--forc", "--Force", "x--force"] = false := by
  refine ⟨hasForceFlag_iff args, ?_, by decide, by decide, by decide⟩
  rw [hasForceFlag_iff, List.mem_iff_getElem?]

/-! ## The decision record -/

theorem formatBlockMessage_ne_empty (ctx ns cmd : String) :
    formatBlockMessage ctx ns cmd ≠ "" := by
  intro h
  have hd := congrArg String.data h
  simp [formatBlockMessage] at hd

theorem ite_message_eq_empty_iff (b : Bool) (m : String) (hm : m ≠ "") :
    ((if b = true then m else "") = "" ↔ b = false) := by
  cases b <;> simp [hm]

theorem getCurrentNamespace_default (env : Env)
    (h : env.currentNamespace.err ≠ none ∨ TrimSpace env.currentNamespace.out = "") :
    (GetCurrentNamespace env).1 = "default" := by
  unfold GetCurrentNamespace
  cases hn : env.currentNamespace.err with
  | some e => rfl
  | none =>
    rcases h with h | h
    · exact absurd hn h
    · simp [h]

/-- C18: a decision returned by `Guard.Check` carries the resolved context, the
resolved namespace and `GetCommand args`, blocked or not; its message is empty exactly
when it is not blocked, and is the block message for those three values otherwise. -/
theorem check_result_fields (g : Guard) (env : Env) (args : List String) (r : CheckResult)
    (h : g.Check env args = .ok r) :
    GetCurrentContext env = .ok r.Context ∧
    r.Namespace = (if GetNamespaceFromArgs args = "" then (GetCurrentNamespace env).1
                   else GetNamespaceFromArgs args) ∧
    r.Command = GetCommand args ∧
    (r.Message = "" ↔ r.Blocked = false) ∧
    (r.Blocked = true → r.Message = formatBlockMessage r.Context r.Namespace r.Command) := by
  cases hc : GetCurrentContext env with
  | error e =>
    have : g.Check env args = .error e := by unfold Guard.Check; rw [hc]
    rw [this] at h
    cases h
  | ok ctx =>
    rw [check_ok_eq g env args ctx hc] at h
    injection h with h
    subst h
    refine ⟨rfl, rfl, rfl, ?_, ?_⟩
    · exact ite_message_eq_empty_iff _ _ (formatBlockMessage_ne_empty _ _ _)
    · intro hb
      dsimp only at hb ⊢
      rw [if_pos hb]

theorem check_result_fields_witness :
    GetCurrentContext ⟨⟨"prod\n", none⟩, ⟨"kube-system\n", none⟩⟩ = .ok "prod" ∧
    ("" = "" ↔ false = false) :=
  ⟨(check_result_fields ⟨⟨[⟨"staging", []⟩]⟩⟩ ⟨⟨"prod\n", none⟩, ⟨"kube-system\n", none⟩⟩
      ["delete", "pod"] ⟨false, "prod", "kube-system", "delete", ""⟩ rfl).1,
   (check_result_fields ⟨⟨[⟨"staging", []⟩]⟩⟩ ⟨⟨"prod\n", none⟩, ⟨"kube-system\n", none⟩⟩
      ["delete", "pod"] ⟨false, "prod", "kube-system", "delete", ""⟩ rfl).2.2.2.1⟩

/-- C19: the end-to-end scenario. With the store `prod` (all namespaces) and `staging`
(namespace `critical`) and a current-namespace lookup that yields nothing:
`delete pod nginx` under `prod` is blocked for context `prod`, namespace `default` and
command `delete`, and the message cites the three; `get pod nginx` under `prod` is not
blocked; `delete pod -n other` under `staging` is not blocked; and
`delete pod -n critical --force` under `staging` is blocked, has the force flag, and
is forwarded as `delete pod -n critical`. -/
theorem check_end_to_end (envProd envStaging : Env)
    (hp : GetCurrentContext envProd = .ok "prod")
    (hs : GetCurrentContext envStaging = .ok "staging")
    (hnp : envProd.currentNamespace.err ≠ none ∨ TrimSpace envProd.currentNamespace.out = "")
    (hns : envStaging.currentNamespace.err ≠ none ∨
      TrimSpace envStaging.currentNamespace.out = "") :
    (Guard.mk scenarioStore).Check envProd ["delete", "pod", "nginx"] =
      .ok { Blocked := true, Context := "prod", Namespace := "default", Command := "delete",
            Message := "blocked\n  context: prod\n  namespace: default\n  command: delete\n\n" ++
              "This context is guarded.\nUse --force flag to execute, or run " ++
              "`kubectl guard unguard prod` to remove protection." } ∧
    (Guard.mk scenarioStore).Check envProd ["get", "pod", "nginx"] =
      .ok { Blocked := false, Context := "prod", Namespace := "default", Command := "get",
            Message := "" } ∧
    (Guard.mk scenarioStore).Check envStaging ["delete", "pod", "-n", "other"] =
      .ok { Blocked := false, Context := "staging", Namespace := "other",
            Command := "delete", Message := "" } ∧
    (Guard.mk scenarioStore).Check envStaging ["delete", "pod", "-n", "critical", "--force"] =
      .ok { Blocked := true, Context := "staging", Namespace := "critical",
            Command := "delete",
            Message := formatBlockMessage "staging" "critical" "delete" } ∧
    HasForceFlag ["delete", "pod", "-n", "critical", "--force"] = true ∧
    RemoveForceFlag ["delete", "pod", "-n", "critical", "--force"] =
      ["delete", "pod", "-n", "critical"] ∧
    (Guard.mk scenarioStore).Check envStaging
        (RemoveForceFlag ["delete", "pod", "-n", "critical", "--force"]) =
      .ok { Blocked := true, Context := "staging", Namespace := "critical",
            Command := "delete",
            Message := formatBlockMessage "staging" "critical" "delete" } := by
  have hdp := getCurrentNamespace_default envProd hnp
  have hds := getCurrentNamespace_default envStaging hns
  refine ⟨?_, ?_, ?_, ?_, by decide, by decide, ?_⟩
  · rw [check_ok_eq _ envProd _ "prod" hp, hdp]; rfl
  · rw [check_ok_eq _ envProd _ "prod" hp, hdp]; rfl
  · rw [check_ok_eq _ envStaging _ "staging" hs, hds]; rfl
  · rw [check_ok_eq _ envStaging _ "staging" hs, hds]; rfl
  · rw [check_ok_eq _ envStaging _ "staging" hs, hds]; rfl

theorem check_end_to_end_witness :
    (Guard.mk scenarioStore).Check ⟨⟨"prod\n", none⟩, ⟨"", none⟩⟩ ["get", "pod", "nginx"] =
      .ok { Blocked := false, Context := "prod", Namespace := "default", Command := "get",
            Message := "" } :=
  (check_end_to_end ⟨⟨"prod\n", none⟩, ⟨"", none⟩⟩
    ⟨⟨"staging\n", none⟩, ⟨"", some "exit status 1"⟩⟩ rfl rfl
    (Or.inr (by decide)) (Or.inl (by decide))).2.1

/-! ## The `exec` path of the command line -/

theorem ite_removeForceFlag (args : List String) :
    (if HasForceFlag args = true then RemoveForceFlag args else args) =
      RemoveForceFlag args := by
  by_cases h : HasForceFlag args = true
  · rw [if_pos h]
  · rw [if_neg h]
    exact (removeForceFlag_of_not_mem args (fun hm => h ((hasForceFlag_iff args).2 hm))).symm

theorem execKubectl_executed (w : World) (args : List String) (path : String)
    (fwd : List String) (h : (ExecKubectl w args).2 = some (path, fwd)) : fwd = args := by
  unfold ExecKubectl at h
  cases hl : w.lookPath with
  | error e => rw [hl] at h; cases h
  | ok p =>
    rw [hl] at h
    simp only [Option.some.injEq, Prod.mk.injEq] at h
    exact h.2.symm

/-- The body of `runExec` on a non-empty vector, with the check result made explicit. -/
theorem runExec_eq (cfg : Config) (w : World) (args : List String)
    (hne : dropSeparator args ≠ []) :
    runExec cfg w args =
      match (Guard.mk cfg).Check w.env (RemoveForceFlag (dropSeparator args)) with
      | .error err =>
        { exitCode := 1, stderr := ["check failed: " ++ err ++ "\n"], executed := none }
      | .ok result =>
        if (result.Blocked && !HasForceFlag (dropSeparator args)) = true then
          { exitCode := 1, stderr := [result.Message ++ "\n"], executed := none }
        else
          { exitCode := if (ExecKubectl w (RemoveForceFlag (dropSeparator args))).1 = none
              then 0 else 1,
            stderr :=
              if (HasForceFlag (dropSeparator args) && result.Blocked) = true then
                ["executing " ++ result.Command ++ " on " ++ result.Context ++
                  " with --force\n"]
              else [],
            executed := (ExecKubectl w (RemoveForceFlag (dropSeparator args))).2 } := by
  have hlen : ¬ (dropSeparator args).length = 0 := by
    intro h0
    exact hne (List.length_eq_zero.1 h0)
  unfold runExec
  simp only [hlen, if_false, ite_removeForceFlag]
  cases (Guard.mk cfg).Check w.env (RemoveForceFlag (dropSeparator args)) with
  | error e => rfl
  | ok r =>
    dsimp only
    by_cases hb : (r.Blocked && !HasForceFlag (dropSeparator args)) = true
    · rw [if_pos hb, if_pos hb]
    · rw [if_neg hb, if_neg hb]
      rcases hx : ExecKubectl w (RemoveForceFlag (dropSeparator args)) with ⟨e, x⟩
      cases e <;> simp

/-- C20: in `runExec` on a vector that is non-empty after the optional leading `--` is
dropped, the wrapped tool is started only if the check succeeded and the decision is
not blocked or the override token was present; a blocked decision without the override
token gives exit code 1 and no start of the wrapped tool; and the vector forwarded to
the wrapped tool is `RemoveForceFlag` of the user's vector, free of `--force`. -/
theorem runExec_safety (cfg : Config) (w : World) (args : List String)
    (hne : dropSeparator args ≠ []) :
    (∀ path fwd, (runExec cfg w args).executed = some (path, fwd) →
      fwd = RemoveForceFlag (dropSeparator args) ∧ "--force" ∉ fwd ∧
      ∃ r, (Guard.mk cfg).Check w.env (RemoveForceFlag (dropSeparator args)) = .ok r ∧
        (r.Blocked = false ∨ HasForceFlag (dropSeparator args) = true)) ∧
    (∀ r, (Guard.mk cfg).Check w.env (RemoveForceFlag (dropSeparator args)) = .ok r →
      r.Blocked = true → HasForceFlag (dropSeparator args) = false →
      (runExec cfg w args).exitCode = 1 ∧ (runExec cfg w args).executed = none) := by
  rw [runExec_eq cfg w args hne]
  refine ⟨?_, ?_⟩
  · intro path fwd hex
    cases hc : (Guard.mk cfg).Check w.env (RemoveForceFlag (dropSeparator args)) with
    | error e => rw [hc] at hex; cases hex
    | ok r =>
      rw [hc] at hex
      dsimp only at hex
      by_cases hb : (r.Blocked && !HasForceFlag (dropSeparator args)) = true
      · rw [if_pos hb] at hex; cases hex
      · rw [if_neg hb] at hex
        have hfwd := execKubectl_executed w _ path fwd hex
        refine ⟨hfwd, ?_, r, rfl, ?_⟩
        · rw [hfwd]; exact force_not_mem_removeForceFlag _
        · cases hB : r.Blocked
          · exact Or.inl rfl
          · cases hF : HasForceFlag (dropSeparator args)
            · rw [hB, hF] at hb; exact absurd rfl hb
            · exact Or.inr rfl
  · intro r hc hB hF
    rw [hc]
    dsimp only
    rw [hB, hF]
    exact ⟨rfl, rfl⟩

theorem runExec_safety_witness :
    (runExec scenarioStore ⟨⟨⟨"staging\n", none⟩, ⟨"", none⟩⟩, .ok "/usr/bin/kubectl", none⟩
        ["--", "delete", "pod", "-n", "critical"]).exitCode = 1 ∧
    (runExec scenarioStore ⟨⟨⟨"staging\n", none⟩, ⟨"", none⟩⟩, .ok "/usr/bin/kubectl", none⟩
        ["--", "delete", "pod", "-n", "critical"]).executed = none ∧
    (runExec scenarioStore ⟨⟨⟨"staging\n", none⟩, ⟨"", none⟩⟩, .ok "/usr/bin/kubectl", none⟩
        ["--", "delete", "--force", "pod", "-n", "critical", "--force"]).executed =
      some ("/usr/bin/kubectl", ["delete", "pod", "-n", "critical"]) := by
  have h1 := (runExec_safety scenarioStore
    ⟨⟨⟨"staging\n", none⟩, ⟨"", none⟩⟩, .ok "/usr/bin/kubectl", none⟩
    ["--", "delete", "pod", "-n", "critical"] (by decide)).2
    ⟨true, "staging", "critical", "delete", formatBlockMessage "staging" "critical" "delete"⟩
    rfl rfl (by decide)
  exact ⟨h1.1, h1.2, rfl⟩

/-! ## The block message -/

/-- A blocked decision carries the block message for its own three values. -/
theorem check_blocked_message (g : Guard) (env : Env) (args : List String) (r : CheckResult)
    (h : g.Check env args = .ok r) (hb : r.Blocked = true) :
    r.Message = formatBlockMessage r.Context r.Namespace r.Command := by
  cases hc : GetCurrentContext env with
  | error e =>
    have : g.Check env args = .error e := by unfold Guard.Check; rw [hc]
    rw [this] at h
    cases h
  | ok ctx =>
    rw [check_ok_eq g env args ctx hc] at h
    injection h with h
    subst h
    dsimp only at hb ⊢
    rw [if_pos hb]

/-- C21: the block message for `(ctx, ns, cmd)` is the seven lines `blocked`,
`  context: ctx`, `  namespace: ns`, `  command: cmd`, an empty line,
`This context is guarded.` and the instruction line naming `--force` and
`kubectl guard unguard ctx`, joined by newlines. Two blocked decisions with the same
context, namespace and command carry the same message. -/
theorem formatBlockMessage_lines (ctx ns cmd : String) :
    formatBlockMessage ctx ns cmd = joinLines (blockMessageLines ctx ns cmd) ∧
    (blockMessageLines ctx ns cmd).length = 7 ∧
    (blockMessageLines ctx ns cmd)[6]? =
      some ("Use " ++ "--force" ++ " flag to execute, or run `" ++
        ("kubectl guard unguard " ++ ctx) ++ "` to remove protection.") ∧
    (∀ (g1 g2 : Guard) (env1 env2 : Env) (args1 args2 : List String) (r1 r2 : CheckResult),
      g1.Check env1 args1 = .ok r1 → g2.Check env2 args2 = .ok r2 →
      r1.Blocked = true → r2.Blocked = true →
      r1.Context = r2.Context → r1.Namespace = r2.Namespace → r1.Command = r2.Command →
      r1.Message = r2.Message) := by
  have e1 : "blocked\n" = "blocked" ++ "\n" := rfl
  have e2 : "\n\n" = "\n" ++ ("" ++ "\n") := rfl
  have e3 : "This context is guarded.\n" = "This context is guarded." ++ "\n" := rfl
  have e4 : "Use --force flag to execute, or run `kubectl guard unguard " =
      "Use " ++ ("--force" ++ (" flag to execute, or run `" ++ "kubectl guard unguard ")) :=
    rfl
  refine ⟨?_, rfl, ?_, ?_⟩
  · unfold formatBlockMessage blockMessageLines
    simp only [joinLines]
    rw [e1, e2, e3]
    simp only [String.append_assoc]
  · simp only [blockMessageLines, List.getElem?_cons_succ, List.getElem?_cons_zero]
    rw [e4]
    simp only [String.append_assoc]
  · intro g1 g2 env1 env2 args1 args2 r1 r2 h1 h2 hb1 hb2 hc hn hm
    rw [check_blocked_message g1 env1 args1 r1 h1 hb1,
      check_blocked_message g2 env2 args2 r2 h2 hb2, hc, hn, hm]

theorem formatBlockMessage_lines_witness :
    formatBlockMessage "prod" "default" "delete" =
      "blocked\n  context: prod\n  namespace: default\n  command: delete\n\n" ++
        "This context is guarded.\nUse --force flag to execute, or run " ++
        "`kubectl guard unguard prod` to remove protection." ∧
    (⟨true, "prod", "default", "delete", formatBlockMessage "prod" "default" "delete"⟩ :
        CheckResult).Message =
      (⟨true, "prod", "default", "delete",
        formatBlockMessage (TrimSpace "  prod") "default" "delete"⟩ : CheckResult).Message :=
  ⟨(formatBlockMessage_lines "prod" "default" "delete").1.trans rfl,
   (formatBlockMessage_lines "prod" "default" "delete").2.2.2
    ⟨⟨[⟨"prod", []⟩]⟩⟩ ⟨⟨[⟨"prod", ["default"]⟩, ⟨"dev", []⟩]⟩⟩
    ⟨⟨"prod\n", none⟩, ⟨"", none⟩⟩ ⟨⟨"  prod", none⟩, ⟨"default\n", none⟩⟩
    ["delete", "pod", "nginx"] ["--context", "x", "delete", "deployment"]
    _ _ rfl rfl rfl rfl rfl rfl rfl⟩

/-! ## The policy store with repeated names -/

/-- C22: in every store, also one with several entries of the same name,
`IsNamespaceGuarded c n` holds exactly when some entry named `c` has an empty namespace
list or lists `n`; so it implies `IsGuarded c`, and it is not determined by the first
entry named `c` alone. -/
theorem isNamespaceGuarded_iff_exists (c : Config) (context nspace : String) :
    (c.IsNamespaceGuarded context nspace = true ↔
      ∃ gc ∈ c.GuardedContexts, gc.Name = context ∧
        (gc.Namespaces = [] ∨ nspace ∈ gc.Namespaces)) ∧
    (c.IsNamespaceGuarded context nspace = true → c.IsGuarded context = true) ∧
    (∃ (c1 c2 : Config) (ctx n : String),
      firstEntryNamed c1 ctx = firstEntryNamed c2 ctx ∧
      c1.IsNamespaceGuarded ctx n = false ∧ c2.IsNamespaceGuarded ctx n = true) := by
  refine ⟨isNamespaceGuardedLoop_iff context nspace c.GuardedContexts, ?_, ?_⟩
  · intro h
    obtain ⟨gc, hmem, hname, -⟩ :=
      (isNamespaceGuardedLoop_iff context nspace c.GuardedContexts).1 h
    exact (isGuardedLoop_iff context c.GuardedContexts).2 ⟨gc, hmem, hname⟩
  · exact ⟨⟨[⟨"staging", ["critical"]⟩]⟩,
      ⟨[⟨"staging", ["critical"]⟩, ⟨"staging", ["other"]⟩]⟩, "staging", "other",
      by decide, by decide, by decide⟩

theorem isNamespaceGuarded_iff_exists_witness :
    (Config.mk [⟨"staging", ["critical"]⟩, ⟨"prod", []⟩, ⟨"staging", ["other"]⟩]).IsGuarded
      "staging" = true :=
  (isNamespaceGuarded_iff_exists
    ⟨[⟨"staging", ["critical"]⟩, ⟨"prod", []⟩, ⟨"staging", ["other"]⟩]⟩ "staging"
    "other").2.1 (by decide)

end KubectlGuard
